import Mathlib

/-!
Verification of the momentum scoring and clustering pipeline of
`src/scanners/momentum_pump_scanner.py` (class `MomentumPumpScanner`).

The pipeline is embedded shallowly: every dictionary-shaped record becomes a
structure, Python numbers become rationals, the wall clock `time.time()`
becomes an explicit `now : ℚ` parameter, and the scraper boundary (network
fetching of posts, message streams and threads) becomes explicit list inputs.
Python string containment (`word in text`) and `str.lower()` are modelled on
the underlying character lists (ASCII case folding, which is what the fixed
keyword vocabularies exercise).
-/

/-- ASCII lower-casing of one character, modelling `str.lower()` on the
ASCII keyword alphabet used by the scanner. -/
def lowerChar (c : Char) : Char :=
  if 65 ≤ c.toNat ∧ c.toNat ≤ 90 then Char.ofNat (c.toNat + 32) else c

/-- Lower-case a string character-wise (model of Python `text.lower()`). -/
def lowerStr (s : String) : String :=
  String.mk (s.toList.map lowerChar)

/-- Does the second list start with the first one? -/
def startsWithChars : List Char → List Char → Bool
  | [], _ => true
  | _ :: _, [] => false
  | a :: as, b :: bs => a = b && startsWithChars as bs

/-- Does `needle` occur contiguously inside the second list? -/
def hasSubChars (needle : List Char) : List Char → Bool
  | [] => startsWithChars needle []
  | c :: cs => startsWithChars needle (c :: cs) || hasSubChars needle cs

/-- Model of the Python membership test `pat in s` on strings. -/
def strContains (s pat : String) : Bool :=
  hasSubChars pat.toList s.toList

/-- One StockTwits message (the fields the scanner reads: `created_at` used
for sorting, `body` used for theme text). -/
structure Msg where
  created_at : String
  body : String
deriving DecidableEq, Repr

/-- One Reddit post record.  `created_utc` is `none` when the field is
absent; `post.get` supplies the remaining defaults, so plain fields model
`score` and `num_comments`. -/
structure Post where
  title : String
  selftext : String
  created_utc : Option ℚ
  score : ℚ
  num_comments : ℚ
deriving DecidableEq, Repr

/-- One 4chan thread record (fields read by the scanner). -/
structure Thread where
  subject : String
  comment : String
  replies : ℕ
deriving DecidableEq, Repr

/-- The `content` payload of a momentum event; the constructor plays the
role of the `type` tag string (`reddit_surge` / `stocktwits_burst` /
`4chan_hot_thread`), which in the scanner is always paired with the
matching content shape. -/
inductive Content where
  | post (p : Post)
  | burst (msgs : List Msg)
  | thread (t : Thread)
deriving DecidableEq, Repr

/-- One momentum event dictionary produced by `_find_momentum_events`. -/
structure MEvent where
  content : Content
  momentum_score : ℚ
  platform : String
deriving DecidableEq, Repr

/-- `_calculate_post_momentum`: engagement velocity of a post, normalised so
that 50 weighted engagement units per hour scores 1.0.  `now` is the value
of `time.time()` at the call.  A missing `created_utc` is read as `0` by
`post.get` and the Python truthiness test then falls back to a 24 hour age. -/
def _calculate_post_momentum (now : ℚ) (post : Post) : ℚ :=
  let created := post.created_utc.getD 0
  let age_hours : ℚ := if created ≠ 0 then (now - created) / 3600 else 24
  let age_hours := if age_hours < 1/2 then 1/2 else age_hours
  let engagement := post.score + post.num_comments * 2
  let momentum := engagement / age_hours
  momentum / 50

/-- The message-accumulation loop of `_group_by_time`: messages are appended
to the current group, which is flushed once it reaches 20 entries; the time
difference check in the source is a comment only (`simplified - would need
proper date parsing`), so no timestamp is consulted here. -/
def groupLoop : List Msg → List Msg → List (List Msg) → List (List Msg)
  | [], current, groups => if current.isEmpty then groups else groups ++ [current]
  | m :: rest, current, groups =>
    if current.isEmpty then groupLoop rest [m] groups
    else
      let current := current ++ [m]
      if 20 ≤ current.length then groupLoop rest [] (groups ++ [current])
      else groupLoop rest current groups

/-- `_group_by_time`: sort messages by `created_at` descending (Python
`sorted(..., reverse=True)`, a stable sort), then chunk them with
`groupLoop`.  The `minutes` parameter of the source is never consulted. -/
def _group_by_time (messages : List Msg) : List (List Msg) :=
  if messages.isEmpty then []
  else
    let sorted_msgs := messages.mergeSort (fun a b => decide (b.created_at ≤ a.created_at))
    groupLoop sorted_msgs [] []

/-- `_find_momentum_events`, scraping removed: `hot_posts` stands for the
collected Reddit posts, `streams` for the per-symbol StockTwits message
lists, `threads` for the 4chan pump threads.  Admission rules are those of
the source: post momentum strictly above 0.5, message groups strictly larger
than 10, threads with strictly more than 50 replies. -/
def _find_momentum_events (now : ℚ) (hot_posts : List Post)
    (streams : List (List Msg)) (threads : List Thread) : List MEvent :=
  (hot_posts.filterMap (fun post =>
    let momentum_score := _calculate_post_momentum now post
    if momentum_score > 1/2 then
      some { content := Content.post post, momentum_score := momentum_score,
             platform := "reddit" }
    else none))
  ++ (streams.flatMap (fun messages =>
    (_group_by_time messages).filterMap (fun time_group =>
      if time_group.length > 10 then
        some { content := Content.burst time_group,
               momentum_score := (time_group.length : ℚ) / 5,
               platform := "stocktwits" }
      else none)))
  ++ (threads.filterMap (fun thread =>
    if thread.replies > 50 then
      some { content := Content.thread thread,
             momentum_score := (thread.replies : ℚ) / 25,
             platform := "4chan" }
    else none))

/-- Text extraction of `_extract_themes` / `_extract_tickers_from_momentum`:
title and selftext for posts, space-joined bodies for bursts, subject and
comment for threads. -/
def eventText : Content → String
  | Content.post p => p.title ++ " " ++ p.selftext
  | Content.burst msgs => String.intercalate " " (msgs.map Msg.body)
  | Content.thread t => t.subject ++ " " ++ t.comment

/-- The sector keyword table of `_extract_sectors`, in source order. -/
def sector_keywords : List (String × List String) :=
  [("tech", ["tech", "software", "saas", "cloud", "ai"]),
   ("biotech", ["biotech", "pharma", "drug", "clinical"]),
   ("energy", ["oil", "energy", "solar", "renewable"]),
   ("finance", ["bank", "financial", "fintech", "payment"]),
   ("retail", ["retail", "consumer", "store", "ecommerce"]),
   ("crypto", ["crypto", "bitcoin", "ethereum", "defi"])]

/-- `_extract_sectors`: emit `sector_<name>` for every sector whose keyword
list has a hit in the lower-cased text, in table order (the rendering of the
source for-loop over the keyword dictionary). -/
def _extract_sectors (text : String) : List String :=
  let text_lower := lowerStr text
  (sector_keywords.filter (fun p => p.2.any (fun kw => strContains text_lower kw))).map
    (fun p => "sector_" ++ p.1)

/-- The thematic keyword table of `_extract_themes`, in the order of the
source if-chain. -/
def themeKeywords : List (String × List String) :=
  [("squeeze_play", ["squeeze", "short", "gamma"]),
   ("pump_hype", ["pump", "moon", "rocket"]),
   ("ma_rumor", ["merger", "acquisition", "buyout"]),
   ("earnings_play", ["earnings", "revenue", "beat"]),
   ("biotech_catalyst", ["fda", "approval", "clinical"]),
   ("crypto_momentum", ["crypto", "bitcoin", "defi"])]

/-- `_extract_themes`: the source appends each thematic tag whose keyword
test fires, in if-chain order (rendered as an ordered table filter), then
extends with the sector tags. -/
def _extract_themes (event : MEvent) : List String :=
  let text := eventText event.content
  let text_lower := lowerStr text
  let themes :=
    (themeKeywords.filter (fun p => p.2.any (fun w => strContains text_lower w))).map Prod.fst
  themes ++ _extract_sectors text

/-- Append an event under a theme key, modelling
`theme_groups[theme].append(event)` on a `defaultdict(list)` (insertion
order of keys preserved, append at first matching key). -/
def appendGroup : List (String × List MEvent) → String → MEvent → List (String × List MEvent)
  | [], theme, e => [(theme, [e])]
  | (t, es) :: rest, theme, e =>
    if t = theme then (t, es ++ [e]) :: rest
    else (t, es) :: appendGroup rest theme e

/-- Process one event of the grouping loop of `_cluster_momentum`: append
the event under each of its extracted themes in order. -/
def groupStep (gs : List (String × List MEvent)) (e : MEvent) : List (String × List MEvent) :=
  (_extract_themes e).foldl (fun gs t => appendGroup gs t e) gs

/-- The grouping loop of `_cluster_momentum`: every event is appended under
each of its extracted themes. -/
def buildGroups (events : List MEvent) : List (String × List MEvent) :=
  events.foldl groupStep []

/-- Read a theme group out of the association list (empty when absent),
modelling a `defaultdict(list)` lookup. -/
def lookupGroup : List (String × List MEvent) → String → List MEvent
  | [], _ => []
  | (t, es) :: rest, theme => if t = theme then es else lookupGroup rest theme

/-- One momentum cluster dictionary. -/
structure MomentumCluster where
  theme : String
  events : List MEvent
  total_momentum : ℚ
  platform_diversity : ℕ
deriving DecidableEq, Repr

/-- Build the cluster dictionary for one theme group, as in the body of the
`for theme, theme_events in theme_groups.items()` loop:
`len(set(...))` is the length after removing duplicates. -/
def mkCluster (theme : String) (theme_events : List MEvent) : MomentumCluster :=
  { theme := theme, events := theme_events,
    total_momentum := (theme_events.map MEvent.momentum_score).sum,
    platform_diversity := ((theme_events.map MEvent.platform).dedup).length }

/-- `_cluster_momentum`: group events by extracted theme, keep groups of at
least two events, and sort the clusters by `total_momentum` descending
(Python `list.sort(key=..., reverse=True)`, a stable sort). -/
def _cluster_momentum (events : List MEvent) : List MomentumCluster :=
  let theme_groups := buildGroups events
  let clusters :=
    (theme_groups.filter (fun p => 2 ≤ p.2.length)).map (fun p => mkCluster p.1 p.2)
  clusters.mergeSort (fun a b => decide (b.total_momentum ≤ a.total_momentum))

/-- Accumulate one cluster into the theme statistics map of
`_analyze_themes` (a `defaultdict` keyed by theme holding a count and a
momentum total). -/
def bumpTheme : List (String × ℕ × ℚ) → String → ℕ → ℚ → List (String × ℕ × ℚ)
  | [], theme, n, m => [(theme, n, m)]
  | (t, c, tm) :: rest, theme, n, m =>
    if t = theme then (t, c + n, tm + m) :: rest
    else (t, c, tm) :: bumpTheme rest theme n m

/-- `_analyze_themes`: per theme, the summed member count and summed
momentum of the clusters carrying it. -/
def _analyze_themes (clusters : List MomentumCluster) : List (String × ℕ × ℚ) :=
  clusters.foldl (fun acc c => bumpTheme acc c.theme c.events.length c.total_momentum) []

/-- Accumulate one event into the platform momentum map of
`_analyze_platform_momentum` (a `defaultdict(float)`). -/
def bumpPlatform : List (String × ℚ) → String → ℚ → List (String × ℚ)
  | [], platform, m => [(platform, m)]
  | (p, tm) :: rest, platform, m =>
    if p = platform then (p, tm + m) :: rest
    else (p, tm) :: bumpPlatform rest platform m

/-- `_analyze_platform_momentum`: summed momentum per platform over the full
event list. -/
def _analyze_platform_momentum (events : List MEvent) : List (String × ℚ) :=
  events.foldl (fun acc e => bumpPlatform acc e.platform e.momentum_score) []

/-- The `risk_indicators` dictionary of `_detect_pump_patterns`. -/
structure RiskIndicators where
  high_risk_patterns : ℕ
  coordinated_platforms : ℕ
  volume_spikes : ℕ
  new_account_ratio : ℚ
deriving DecidableEq, Repr

/-- The platform span of a cluster, `len(set(e['platform'] for e in
cluster['events']))` as recomputed inside `_detect_pump_patterns`. -/
def platformSpan (c : MomentumCluster) : ℕ :=
  ((c.events.map MEvent.platform).dedup).length

/-- The cluster loop of `_detect_pump_patterns`: running pattern count and
running maximum of spans above two platforms. -/
def coordStep (acc : ℕ × ℕ) (c : MomentumCluster) : ℕ × ℕ :=
  if platformSpan c > 2 then (acc.1 + 1, max acc.2 (platformSpan c)) else acc

/-- `_detect_pump_patterns`: cross-platform coordination count and maximal
span, volume spikes (momentum strictly above 5.0), and the hard-coded
new-account ratio of 0.35 when some cluster theme contains `squeeze` or
`pump` as a substring. -/
def _detect_pump_patterns (clusters : List MomentumCluster) (events : List MEvent) :
    RiskIndicators :=
  let coord := clusters.foldl coordStep (0, 0)
  let high_momentum_events := events.filter (fun e => e.momentum_score > 5)
  let ratio : ℚ :=
    if clusters.any (fun c => strContains c.theme "squeeze" || strContains c.theme "pump")
    then 35/100 else 0
  { high_risk_patterns := coord.1, coordinated_platforms := coord.2,
    volume_spikes := high_momentum_events.length, new_account_ratio := ratio }

/-- The pure content of the `results` dictionary built by
`find_momentum_pumps` (timing, AI analysis and the cosmetic top-theme and
peak-time strings are outside the core pipeline). -/
structure ScanResult where
  momentum_events : ℕ
  clusters_found : ℕ
  theme_breakdown : List (String × ℕ × ℚ)
  platform_momentum : List (String × ℚ)
  risk : RiskIndicators
  recommendation : String
deriving DecidableEq, Repr

/-- The high risk recommendation string. -/
def recHighRisk : String := "⚠️ HIGH PUMP RISK - Multiple coordinated patterns detected"

/-- The elevated activity recommendation string. -/
def recElevated : String := "🔍 ELEVATED ACTIVITY - Monitor these themes closely"

/-- The normal chatter recommendation string. -/
def recNormal : String := "✅ NORMAL MARKET CHATTER - No significant pump patterns"

/-- `find_momentum_pumps`, with the scraped inputs made explicit: run the
normaliser, cluster, analyse themes and platforms, detect risk patterns and
derive the recommendation from the counts. -/
def find_momentum_pumps (now : ℚ) (hot_posts : List Post)
    (streams : List (List Msg)) (threads : List Thread) : ScanResult :=
  let momentum_events := _find_momentum_events now hot_posts streams threads
  let momentum_clusters := _cluster_momentum momentum_events
  let theme_breakdown := _analyze_themes momentum_clusters
  let platform_momentum := _analyze_platform_momentum momentum_events
  let risk_analysis := _detect_pump_patterns momentum_clusters momentum_events
  let recommendation :=
    if risk_analysis.high_risk_patterns > 3 then recHighRisk
    else if momentum_clusters.length > 5 then recElevated
    else recNormal
  { momentum_events := momentum_events.length,
    clusters_found := momentum_clusters.length,
    theme_breakdown := theme_breakdown,
    platform_momentum := platform_momentum,
    risk := risk_analysis,
    recommendation := recommendation }

/-- The group preconditions on an association list maintained by the
grouping loop: keys are unique and every stored group is nonempty. -/
def GroupsWF (gs : List (String × List MEvent)) : Prop :=
  (gs.map Prod.fst).Nodup ∧ ∀ p ∈ gs, p.2 ≠ []

/-- The clusters of `_cluster_momentum` before the final sort. -/
def rawClusters (events : List MEvent) : List MomentumCluster :=
  ((buildGroups events).filter (fun p => 2 ≤ p.2.length)).map (fun p => mkCluster p.1 p.2)

/-- Scenario A post of the specification: score 100, 25 comments, created
at epoch second 3600 (one hour before a scan at epoch second 7200). -/
def pScenario : Post :=
  { title := "", selftext := "", created_utc := some 3600, score := 100, num_comments := 25 }

/-- A post with no creation timestamp and 1200 score (so that the 24 hour
default age still yields momentum 1200 / 24 / 50 = 1, above the floor). -/
def pNone : Post :=
  { title := "", selftext := "", created_utc := none, score := 1200, num_comments := 0 }

/-- The event the normaliser produces from `pScenario` at time 7200. -/
def evScenario : MEvent :=
  { content := Content.post pScenario, momentum_score := 3, platform := "reddit" }

/-- The event the normaliser produces from `pScenario` at time 10800
(the same post two hours old scores half as much). -/
def evScenarioLater : MEvent :=
  { content := Content.post pScenario, momentum_score := 3/2, platform := "reddit" }

/-- A plain StockTwits message used to build concrete bursts. -/
def mT : Msg := { created_at := "t", body := "hi" }

/-- Eleven identical messages: one burst bucket of exactly 11. -/
def msgs11 : List Msg := [mT, mT, mT, mT, mT, mT, mT, mT, mT, mT, mT]

/-- The burst event the normaliser produces from `msgs11`. -/
def evBurst : MEvent :=
  { content := Content.burst msgs11, momentum_score := 11/5, platform := "stocktwits" }

/-- A 4chan thread with 51 replies. -/
def thB : Thread := { subject := "", comment := "", replies := 51 }

/-- The thread event the normaliser produces from `thB`. -/
def evThread : MEvent :=
  { content := Content.thread thB, momentum_score := 51/25, platform := "4chan" }

/-- A message created at midnight (for the bucketing counterexample). -/
def mEarly : Msg := { created_at := "2024-01-01T00:00:00Z", body := "a" }

/-- A message created five hours later than `mEarly`. -/
def mLate : Msg := { created_at := "2024-01-01T05:00:00Z", body := "b" }

/-- A reddit-style event whose text mentions `pump` (Scenario C). -/
def ePump1 : MEvent :=
  { content := Content.post
      { title := "pump", selftext := "", created_utc := none, score := 0, num_comments := 0 },
    momentum_score := 3, platform := "reddit" }

/-- A thread-style event from another platform whose text mentions `pump`
(Scenario C). -/
def ePump2 : MEvent :=
  { content := Content.thread { subject := "pump", comment := "", replies := 0 },
    momentum_score := 4, platform := "stocktwits" }

/-- The two Scenario C events. -/
def exEvents : List MEvent := [ePump1, ePump2]

/-- The single cluster the aggregator builds from `exEvents`. -/
def clusterC : MomentumCluster :=
  { theme := "pump_hype", events := [ePump1, ePump2], total_momentum := 7,
    platform_diversity := 2 }

/-- The division-by-zero clamp of `_calculate_post_momentum` is a maximum
with one half. -/
theorem clampHalf (x : ℚ) : (if x < 1/2 then (1:ℚ)/2 else x) = max x (1/2) := by
  rcases lt_or_le x (1/2) with h | h
  · rw [if_pos h, max_eq_right h.le]
  · rw [if_neg (not_lt.2 h), max_eq_left h]

/-- C1: for every forum/post-style record the momentum score is
`(engagement_score + 2 * comment_count) / max(age_hours, 0.5) / 50` with
`age_hours = (now - created_timestamp) / 3600`, the age defaults to 24
hours when the creation timestamp is missing, and the Scenario A post
(score 100, 25 comments, created one hour before the scan) scores 3.0. -/
theorem C1_post_momentum (post : Post) (now : ℚ) :
    (∀ c : ℚ, post.created_utc = some c → c ≠ 0 →
        _calculate_post_momentum now post
          = (post.score + 2 * post.num_comments) / max ((now - c) / 3600) (1/2) / 50)
  ∧ (post.created_utc = none →
        _calculate_post_momentum now post
          = (post.score + 2 * post.num_comments) / 24 / 50)
  ∧ _calculate_post_momentum 7200 pScenario = 3 := by
  refine ⟨?_, ?_, ?_⟩
  · intro c hc hc0
    simp only [_calculate_post_momentum, hc, Option.getD_some, ne_eq, hc0, not_false_iff,
      if_true, clampHalf, mul_comm]
  · intro hc
    simp only [_calculate_post_momentum, hc, Option.getD_none, ne_eq, not_true, if_false,
      mul_comm]
    norm_num
  · simp [_calculate_post_momentum, pScenario]
    norm_num

/-- Witness for C1: both timestamp cases at concrete posts, one created at
epoch second 3600 and scanned at 7200, one with no timestamp. -/
theorem C1_post_momentum_witness :
    (_calculate_post_momentum 7200 pScenario
      = (pScenario.score + 2 * pScenario.num_comments) / max ((7200 - 3600) / 3600) (1/2) / 50)
  ∧ (_calculate_post_momentum 7200 pNone
      = (pNone.score + 2 * pNone.num_comments) / 24 / 50) :=
  ⟨(C1_post_momentum pScenario 7200).1 3600 rfl (by norm_num),
   (C1_post_momentum pNone 7200).2.1 rfl⟩

/-- C4: the recommendation of a scan result is a pure function of the
computed counts: the high risk message when more than 3 high risk patterns
were counted, else the elevated activity message when more than 5 clusters
were found, else the normal chatter message. -/
theorem C4_recommendation (now : ℚ) (hot_posts : List Post)
    (streams : List (List Msg)) (threads : List Thread) :
    (find_momentum_pumps now hot_posts streams threads).recommendation
      = if 3 < (find_momentum_pumps now hot_posts streams threads).risk.high_risk_patterns
        then recHighRisk
        else if 5 < (find_momentum_pumps now hot_posts streams threads).clusters_found
        then recElevated
        else recNormal := rfl

/-- C7: on an empty input event list the pipeline produces the well-formed
zero-valued result: no clusters, empty breakdowns, all risk counts zero,
zero new-account ratio, and the normal chatter recommendation. -/
theorem C7_empty_input (now : ℚ) :
    find_momentum_pumps now [] [] []
      = { momentum_events := 0, clusters_found := 0, theme_breakdown := [],
          platform_momentum := [],
          risk := { high_risk_patterns := 0, coordinated_platforms := 0,
                    volume_spikes := 0, new_account_ratio := 0 },
          recommendation := recNormal } := by
  simp [find_momentum_pumps, _find_momentum_events, _cluster_momentum, buildGroups,
        groupStep, _analyze_themes, _analyze_platform_momentum, _detect_pump_patterns]

/-- The cluster loop of the risk detector counts qualifying clusters and
folds a running maximum over their platform spans. -/
theorem coordFold (clusters : List MomentumCluster) (a b : ℕ) :
    clusters.foldl coordStep (a, b)
      = (a + (clusters.filter (fun c => 2 < platformSpan c)).length,
         ((clusters.filter (fun c => 2 < platformSpan c)).map platformSpan).foldl max b) := by
  induction clusters generalizing a b with
  | nil => simp
  | cons c cs ih =>
    by_cases h : 2 < platformSpan c
    · rw [List.foldl_cons]
      have hstep : coordStep (a, b) c = (a + 1, max b (platformSpan c)) := by
        simp [coordStep, h]
      rw [hstep, ih, List.filter_cons_of_pos (by simpa using h)]
      simp [Nat.add_comm, Nat.add_assoc, Nat.add_left_comm]
    · rw [List.foldl_cons]
      have hstep : coordStep (a, b) c = (a, b) := by simp [coordStep, h]
      rw [hstep, ih, List.filter_cons_of_neg (by simpa using h)]

/-- The platform span recomputed by the detector is the number of distinct
platforms among the member events. -/
theorem spanEq (c : MomentumCluster) :
    ((c.events.map MEvent.platform).toFinset).card = platformSpan c := by
  rw [List.card_toFinset]; rfl

/-- C3: the risk summariser counts the clusters spanning more than two
distinct platforms, takes the maximum such span (zero when there is none),
counts the events with momentum strictly above 5.0, and sets the
new-account ratio to 0.35 exactly when some cluster theme contains the
substring squeeze or pump, else 0.0. -/
theorem C3_detect (clusters : List MomentumCluster) (events : List MEvent) :
    (_detect_pump_patterns clusters events).high_risk_patterns
        = (clusters.filter
            (fun c => 2 < ((c.events.map MEvent.platform).toFinset).card)).length
  ∧ (_detect_pump_patterns clusters events).coordinated_platforms
        = ((clusters.filter
              (fun c => 2 < ((c.events.map MEvent.platform).toFinset).card)).map
            (fun c => ((c.events.map MEvent.platform).toFinset).card)).foldl max 0
  ∧ (_detect_pump_patterns clusters events).volume_spikes
        = (events.filter (fun e => 5 < e.momentum_score)).length
  ∧ (_detect_pump_patterns clusters events).new_account_ratio
        = if ∃ c ∈ clusters,
              strContains c.theme "squeeze" = true ∨ strContains c.theme "pump" = true
          then 35/100 else 0 := by
  have hiff : (clusters.any
        (fun c => strContains c.theme "squeeze" || strContains c.theme "pump") = true)
      ↔ (∃ c ∈ clusters,
          strContains c.theme "squeeze" = true ∨ strContains c.theme "pump" = true) := by
    simp [List.any_eq_true]
  refine ⟨?_, ?_, ?_, ?_⟩
  · simp only [_detect_pump_patterns, coordFold, spanEq]
    simp
  · simp only [_detect_pump_patterns, coordFold, spanEq]
  · simp only [_detect_pump_patterns, gt_iff_lt]
  · simp only [_detect_pump_patterns]
    cases hany : clusters.any
        (fun c => strContains c.theme "squeeze" || strContains c.theme "pump") with
    | true =>
      rw [if_pos (hiff.mp hany)]
      simp
    | false =>
      have hnx : ¬ ∃ c ∈ clusters,
          strContains c.theme "squeeze" = true ∨ strContains c.theme "pump" = true := by
        intro hx
        rw [hiff.mpr hx] at hany
        exact absurd hany (by simp)
      rw [if_neg hnx]
      simp

/-- Membership in the normaliser output, by source section: an admitted
post, an admitted message burst, or an admitted high-reply thread. -/
theorem mem_find_momentum_events (now : ℚ) (hot_posts : List Post)
    (streams : List (List Msg)) (threads : List Thread) (e : MEvent) :
    e ∈ _find_momentum_events now hot_posts streams threads ↔
      (∃ post ∈ hot_posts, 1/2 < _calculate_post_momentum now post
        ∧ e = { content := Content.post post,
                momentum_score := _calculate_post_momentum now post, platform := "reddit" })
    ∨ (∃ msgs ∈ streams, ∃ g ∈ _group_by_time msgs, 10 < g.length
        ∧ e = { content := Content.burst g, momentum_score := (g.length : ℚ)/5,
                platform := "stocktwits" })
    ∨ (∃ th ∈ threads, 50 < th.replies
        ∧ e = { content := Content.thread th, momentum_score := (th.replies : ℚ)/25,
                platform := "4chan" }) := by
  unfold _find_momentum_events
  simp only [List.mem_append, List.mem_filterMap, List.mem_flatMap, gt_iff_lt]
  constructor
  · rintro ((⟨p, hp, hsome⟩ | ⟨msgs, hmsgs, g, hg, hsome⟩) | ⟨th, hth, hsome⟩)
    · by_cases hc : 1/2 < _calculate_post_momentum now p
      · rw [if_pos hc] at hsome
        exact Or.inl ⟨p, hp, hc, (Option.some.inj hsome).symm⟩
      · rw [if_neg hc] at hsome
        exact absurd hsome (by simp)
    · by_cases hc : 10 < g.length
      · rw [if_pos hc] at hsome
        exact Or.inr (Or.inl ⟨msgs, hmsgs, g, hg, hc, (Option.some.inj hsome).symm⟩)
      · rw [if_neg hc] at hsome
        exact absurd hsome (by simp)
    · by_cases hc : 50 < th.replies
      · rw [if_pos hc] at hsome
        exact Or.inr (Or.inr ⟨th, hth, hc, (Option.some.inj hsome).symm⟩)
      · rw [if_neg hc] at hsome
        exact absurd hsome (by simp)
  · rintro (⟨p, hp, hc, rfl⟩ | ⟨msgs, hmsgs, g, hg, hc, rfl⟩ | ⟨th, hth, hc, rfl⟩)
    · exact Or.inl (Or.inl ⟨p, hp, by rw [if_pos hc]⟩)
    · exact Or.inl (Or.inr ⟨msgs, hmsgs, g, hg, by rw [if_pos hc]⟩)
    · exact Or.inr ⟨th, hth, by rw [if_pos hc]⟩

/-- C5: every event the normaliser emits carries a non-negative momentum
score, and no reddit post-style event below the 0.5 floor is emitted. -/
theorem C5_normalizer_floor (now : ℚ) (hot_posts : List Post)
    (streams : List (List Msg)) (threads : List Thread) :
    ∀ e ∈ _find_momentum_events now hot_posts streams threads,
      0 ≤ e.momentum_score ∧ (e.platform = "reddit" → ¬ (e.momentum_score < 1/2)) := by
  intro e he
  rcases (mem_find_momentum_events now hot_posts streams threads e).mp he with
    ⟨p, _, hc, rfl⟩ | ⟨msgs, _, g, _, _, rfl⟩ | ⟨th, _, _, rfl⟩
  · exact ⟨by simp only []; linarith, fun _ hlt => by simp only [] at hlt; linarith⟩
  · refine ⟨by positivity, fun hplat => ?_⟩
    exact absurd hplat (by simp)
  · refine ⟨by positivity, fun hplat => ?_⟩
    exact absurd hplat (by simp)

/-- C9: every stocktwits burst event in the normaliser output comes from a
bucket of strictly more than 10 messages and so scores above 2.0, and every
4chan thread event comes from a thread with strictly more than 50 replies
and so scores above 2.0. -/
theorem C9_stricter_floors (now : ℚ) (hot_posts : List Post)
    (streams : List (List Msg)) (threads : List Thread) :
    ∀ e ∈ _find_momentum_events now hot_posts streams threads,
      (e.platform = "stocktwits" →
        ∃ msgs, e.content = Content.burst msgs ∧ 10 < msgs.length
          ∧ e.momentum_score = (msgs.length : ℚ)/5 ∧ 2 < e.momentum_score)
    ∧ (e.platform = "4chan" →
        ∃ th, e.content = Content.thread th ∧ 50 < th.replies
          ∧ e.momentum_score = (th.replies : ℚ)/25 ∧ 2 < e.momentum_score) := by
  intro e he
  rcases (mem_find_momentum_events now hot_posts streams threads e).mp he with
    ⟨p, _, hc, rfl⟩ | ⟨msgs, _, g, _, hc, rfl⟩ | ⟨th, _, hc, rfl⟩
  · exact ⟨fun hplat => absurd hplat (by simp), fun hplat => absurd hplat (by simp)⟩
  · refine ⟨fun _ => ⟨g, rfl, hc, rfl, ?_⟩, fun hplat => absurd hplat (by simp)⟩
    have hg : (10 : ℚ) < (g.length : ℚ) := by exact_mod_cast hc
    simp only []
    linarith
  · refine ⟨fun hplat => absurd hplat (by simp), fun _ => ⟨th, rfl, hc, rfl, ?_⟩⟩
    have hg : (50 : ℚ) < (th.replies : ℚ) := by exact_mod_cast hc
    simp only []
    linarith

/-- Eleven messages with equal timestamps form a single bucket. -/
theorem Egroup11 : _group_by_time msgs11 = [msgs11] := by
  unfold _group_by_time
  rw [if_neg (by decide), List.mergeSort_of_sorted
    (by simp [msgs11, List.pairwise_cons, mT])]
  decide

/-- The Scenario A post evaluated at scan time 7200 scores 3. -/
theorem Emom : _calculate_post_momentum 7200 pScenario = 3 := by
  simp [_calculate_post_momentum, pScenario]
  norm_num

/-- The normaliser on the single Scenario A post yields one reddit event. -/
theorem Ev1 : _find_momentum_events 7200 [pScenario] [] [] = [evScenario] := by
  simp only [_find_momentum_events, List.filterMap_cons, List.filterMap_nil, Emom,
    List.flatMap_nil, List.append_nil]
  rw [if_pos (show (3:ℚ) > 1/2 by norm_num)]
  simp [evScenario]

/-- The normaliser on one 11-message stream and one 51-reply thread yields
one burst event and one thread event. -/
theorem Ev9 : _find_momentum_events 0 [] [msgs11] [thB] = [evBurst, evThread] := by
  simp only [_find_momentum_events, List.filterMap_cons, List.filterMap_nil,
    List.flatMap_cons, List.flatMap_nil, Egroup11, List.append_nil, List.nil_append]
  rw [if_pos (show 10 < msgs11.length by decide),
    if_pos (show thB.replies > 50 by decide)]
  simp [evBurst, evThread, thB]
  norm_num [msgs11]

/-- Witness for C5 at the concrete Scenario A input. -/
theorem C5_normalizer_floor_witness :
    0 ≤ evScenario.momentum_score
  ∧ (evScenario.platform = "reddit" → ¬ (evScenario.momentum_score < 1/2)) :=
  C5_normalizer_floor 7200 [pScenario] [] [] evScenario (by rw [Ev1]; simp)

/-- Witness for C9 at a concrete burst and a concrete thread. -/
theorem C9_stricter_floors_witness :
    (evBurst.platform = "stocktwits" →
        ∃ msgs, evBurst.content = Content.burst msgs ∧ 10 < msgs.length
          ∧ evBurst.momentum_score = (msgs.length : ℚ)/5 ∧ 2 < evBurst.momentum_score)
  ∧ (evThread.platform = "4chan" →
        ∃ th, evThread.content = Content.thread th ∧ 50 < th.replies
          ∧ evThread.momentum_score = (th.replies : ℚ)/25 ∧ 2 < evThread.momentum_score) :=
  ⟨(C9_stricter_floors 0 [] [msgs11] [thB] evBurst (by rw [Ev9]; simp)).1,
   (C9_stricter_floors 0 [] [msgs11] [thB] evThread (by rw [Ev9]; simp)).2⟩

/-- The Scenario A event text carries no theme keywords. -/
theorem Eth1 : _extract_themes evScenario = [] := by decide

/-- A post whose timestamp reads as zero is scored independently of the
clock: the 24 hour default age is used. -/
theorem calcIndep (p : Post) (h : p.created_utc.getD 0 = 0) (n₁ n₂ : ℚ) :
    _calculate_post_momentum n₁ p = _calculate_post_momentum n₂ p := by
  unfold _calculate_post_momentum
  rw [h]
  simp

/-- C8 (amended): the pipeline is a pure function of its input lists and
the single clock reading passed to it, so two runs with the same reading
agree definitionally; moreover, when every post timestamp is missing (reads
as zero), the deterministic 24 hour default makes the whole result
independent of the clock reading. -/
theorem C8_clock_determinism (now₁ now₂ : ℚ) (hot_posts : List Post)
    (streams : List (List Msg)) (threads : List Thread)
    (h : ∀ p ∈ hot_posts, p.created_utc.getD 0 = 0) :
    find_momentum_pumps now₁ hot_posts streams threads
      = find_momentum_pumps now₂ hot_posts streams threads := by
  have hev : _find_momentum_events now₁ hot_posts streams threads
      = _find_momentum_events now₂ hot_posts streams threads := by
    unfold _find_momentum_events
    have : ∀ posts : List Post, (∀ p ∈ posts, p.created_utc.getD 0 = 0) →
        posts.filterMap (fun post =>
          let momentum_score := _calculate_post_momentum now₁ post
          if momentum_score > 1/2 then
            some ({ content := Content.post post, momentum_score := momentum_score,
                    platform := "reddit" } : MEvent)
          else none)
        = posts.filterMap (fun post =>
          let momentum_score := _calculate_post_momentum now₂ post
          if momentum_score > 1/2 then
            some ({ content := Content.post post, momentum_score := momentum_score,
                    platform := "reddit" } : MEvent)
          else none) := by
      intro posts hp
      induction posts with
      | nil => rfl
      | cons q qs ih =>
        rw [List.filterMap_cons, List.filterMap_cons,
          ih (fun r hr => hp r (List.mem_cons_of_mem q hr))]
        have hq := calcIndep q (hp q (List.mem_cons_self q qs)) now₁ now₂
        simp only [hq]
    rw [this hot_posts h]
  unfold find_momentum_pumps
  rw [hev]

/-- Witness for C8: a timestampless post scanned at two different times. -/
theorem C8_clock_determinism_witness :
    find_momentum_pumps 0 [pNone] [] [] = find_momentum_pumps 3600 [pNone] [] [] :=
  C8_clock_determinism 0 3600 [pNone] [] []
    (by intro p hp; rw [List.mem_singleton.mp hp]; rfl)

/-- The Scenario A post evaluated at scan time 10800 scores 3/2. -/
theorem EmomLater : _calculate_post_momentum 10800 pScenario = 3/2 := by
  simp [_calculate_post_momentum, pScenario]
  norm_num

/-- The normaliser on the Scenario A post at time 10800. -/
theorem EvLater : _find_momentum_events 10800 [pScenario] [] [] = [evScenarioLater] := by
  simp only [_find_momentum_events, List.filterMap_cons, List.filterMap_nil, EmomLater,
    List.flatMap_nil, List.append_nil]
  rw [if_pos (show (3:ℚ)/2 > 1/2 by norm_num)]
  simp [evScenarioLater]

/-- The later Scenario A event also carries no theme keywords. -/
theorem EthLater : _extract_themes evScenarioLater = [] := by decide

/-- Full pipeline result for the Scenario A post scanned at 7200. -/
theorem Escan1 : find_momentum_pumps 7200 [pScenario] [] []
    = { momentum_events := 1, clusters_found := 0, theme_breakdown := [],
        platform_momentum := [("reddit", 3)],
        risk := { high_risk_patterns := 0, coordinated_platforms := 0,
                  volume_spikes := 0, new_account_ratio := 0 },
        recommendation := recNormal } := by
  unfold find_momentum_pumps
  rw [Ev1]
  simp [_cluster_momentum, buildGroups, groupStep, Eth1, _analyze_themes, _analyze_platform_momentum,
    bumpPlatform, _detect_pump_patterns,
    (show evScenario.platform = "reddit" from rfl),
    (show evScenario.momentum_score = 3 from rfl),
    (show ¬((5:ℚ) < 3) by norm_num)]

/-- Full pipeline result for the Scenario A post scanned at 10800. -/
theorem Escan2 : find_momentum_pumps 10800 [pScenario] [] []
    = { momentum_events := 1, clusters_found := 0, theme_breakdown := [],
        platform_momentum := [("reddit", 3/2)],
        risk := { high_risk_patterns := 0, coordinated_platforms := 0,
                  volume_spikes := 0, new_account_ratio := 0 },
        recommendation := recNormal } := by
  unfold find_momentum_pumps
  rw [EvLater]
  simp [_cluster_momentum, buildGroups, groupStep, EthLater, _analyze_themes, _analyze_platform_momentum,
    bumpPlatform, _detect_pump_patterns,
    (show evScenarioLater.platform = "reddit" from rfl),
    (show evScenarioLater.momentum_score = 3/2 from rfl),
    (show ¬((5:ℚ) < 3/2) by norm_num)]

/-- Counterexample to C8 as stated: the pipeline does depend on the clock
when a post has a (nonzero) creation timestamp — the same input scanned at
epoch seconds 7200 and 10800 yields different platform momentum sums. -/
theorem C8_counterexample :
    find_momentum_pumps 7200 [pScenario] [] [] ≠ find_momentum_pumps 10800 [pScenario] [] [] := by
  intro hcon
  rw [Escan1, Escan2] at hcon
  have hpm := congrArg ScanResult.platform_momentum hcon
  simp at hpm
  exact absurd hpm (by norm_num)

/-- The normaliser on the 11-message stream alone yields one burst event. -/
theorem EvC6 : _find_momentum_events 0 [] [msgs11] [] = [evBurst] := by
  simp only [_find_momentum_events, List.filterMap_cons, List.filterMap_nil,
    List.flatMap_cons, List.flatMap_nil, Egroup11, List.append_nil, List.nil_append]
  rw [if_pos (show 10 < msgs11.length by decide)]
  simp [evBurst]
  norm_num [msgs11]

/-- C6: the burst momentum formula holds (a bucket of exactly 11 grouped
messages scores 11/5 = 2.2), but the grouping itself never consults the
timestamps: two messages created five hours apart are placed in the same
bucket, contradicting the documented fixed 30-minute window (the source
code only chunks the sorted list into groups of at most 20). -/
theorem C6_time_bucketing :
    _group_by_time [mLate, mEarly] = [[mLate, mEarly]]
  ∧ (_find_momentum_events 0 [] [msgs11] []).map MEvent.momentum_score = [11/5] := by
  constructor
  · unfold _group_by_time
    rw [if_neg (by decide), List.mergeSort_of_sorted]
    · decide
    · simp [mLate, mEarly, List.pairwise_cons]
      decide
  · rw [EvC6]
    rfl

/-- The six thematic tags are pairwise distinct. -/
theorem themeTags_nodup : (themeKeywords.map Prod.fst).Nodup := by decide

/-- The six sector tags are pairwise distinct. -/
theorem sectorTags_nodup :
    ((sector_keywords.map (fun p => "sector_" ++ p.1))).Nodup := by decide

/-- No thematic tag is also a sector tag. -/
theorem tagTables_disjoint :
    ∀ x ∈ themeKeywords.map Prod.fst,
      x ∉ sector_keywords.map (fun p => "sector_" ++ p.1) := by decide

/-- An event never carries the same theme tag twice. -/
theorem extract_themes_nodup (e : MEvent) : (_extract_themes e).Nodup := by
  unfold _extract_themes
  apply List.Nodup.append
  · exact themeTags_nodup.sublist ((List.filter_sublist _).map Prod.fst)
  · unfold _extract_sectors
    exact sectorTags_nodup.sublist ((List.filter_sublist _).map _)
  · intro x hx hy
    have hx' : x ∈ themeKeywords.map Prod.fst :=
      (((List.filter_sublist _).map Prod.fst).subset) hx
    have hy' : x ∈ sector_keywords.map (fun p => "sector_" ++ p.1) := by
      unfold _extract_sectors at hy
      exact (((List.filter_sublist _).map _).subset) hy
    exact tagTables_disjoint x hx' hy'

/-- Appending an event under a theme extends exactly that group. -/
theorem lookup_appendGroup_same (gs : List (String × List MEvent)) (t : String) (e : MEvent) :
    lookupGroup (appendGroup gs t e) t = lookupGroup gs t ++ [e] := by
  induction gs with
  | nil => simp [appendGroup, lookupGroup]
  | cons p rest ih =>
    obtain ⟨k, v⟩ := p
    by_cases hk : k = t
    · subst hk
      simp [appendGroup, lookupGroup]
    · simp [appendGroup, lookupGroup, hk, ih]

/-- Appending an event under a theme leaves the other groups unchanged. -/
theorem lookup_appendGroup_other (gs : List (String × List MEvent)) (t t' : String)
    (e : MEvent) (h : t' ≠ t) :
    lookupGroup (appendGroup gs t e) t' = lookupGroup gs t' := by
  induction gs with
  | nil => simp [appendGroup, lookupGroup, Ne.symm h]
  | cons p rest ih =>
    obtain ⟨k, v⟩ := p
    by_cases hk : k = t
    · subst hk
      simp [appendGroup, lookupGroup, ih, Ne.symm h]
    · simp [appendGroup, lookupGroup, hk, ih]

/-- Appending under a theme adds the key at the end when it is new. -/
theorem keys_appendGroup (gs : List (String × List MEvent)) (t : String) (e : MEvent) :
    (appendGroup gs t e).map Prod.fst
      = if t ∈ gs.map Prod.fst then gs.map Prod.fst else gs.map Prod.fst ++ [t] := by
  induction gs with
  | nil => simp [appendGroup]
  | cons p rest ih =>
    obtain ⟨k, v⟩ := p
    by_cases hk : k = t
    · subst hk
      simp [appendGroup]
    · by_cases hm : t ∈ rest.map Prod.fst
      · simp [appendGroup, hk, ih, hm, Ne.symm hk]
      · simp [appendGroup, hk, ih, hm, Ne.symm hk]

/-- Appending under a theme preserves key uniqueness. -/
theorem keysNodup_appendGroup (gs : List (String × List MEvent)) (t : String) (e : MEvent)
    (h : (gs.map Prod.fst).Nodup) :
    ((appendGroup gs t e).map Prod.fst).Nodup := by
  rw [keys_appendGroup]
  by_cases hm : t ∈ gs.map Prod.fst
  · simpa [hm] using h
  · simp [hm, List.nodup_append, h]

/-- Appending under a theme preserves group nonemptiness. -/
theorem entries_appendGroup (gs : List (String × List MEvent)) (t : String) (e : MEvent)
    (h : ∀ p ∈ gs, p.2 ≠ []) :
    ∀ p ∈ appendGroup gs t e, p.2 ≠ [] := by
  induction gs with
  | nil =>
    intro p hp
    simp [appendGroup] at hp
    subst hp
    simp
  | cons q rest ih =>
    obtain ⟨k, v⟩ := q
    intro p hp
    by_cases hk : k = t
    · subst hk
      simp [appendGroup] at hp
      rcases hp with hp | hp
      · subst hp
        simp
      · exact h p (List.mem_cons_of_mem _ hp)
    · simp [appendGroup, hk] at hp
      rcases hp with hp | hp
      · subst hp
        exact h (k, v) (List.mem_cons_self _ _)
      · exact ih (fun r hr => h r (List.mem_cons_of_mem _ hr)) p hp

/-- Appending under a theme preserves the grouping invariants. -/
theorem wf_appendGroup (gs : List (String × List MEvent)) (t : String) (e : MEvent)
    (h : GroupsWF gs) : GroupsWF (appendGroup gs t e) :=
  ⟨keysNodup_appendGroup gs t e h.1, entries_appendGroup gs t e h.2⟩

/-- With nonempty groups, a key is present exactly when its group is
nonempty. -/
theorem mem_keys_iff (gs : List (String × List MEvent)) (h : ∀ p ∈ gs, p.2 ≠ [])
    (t : String) :
    t ∈ gs.map Prod.fst ↔ lookupGroup gs t ≠ [] := by
  induction gs with
  | nil => simp [lookupGroup]
  | cons q rest ih =>
    obtain ⟨k, v⟩ := q
    by_cases hk : k = t
    · subst hk
      simp [lookupGroup, h (k, v) (List.mem_cons_self _ _)]
    · simp only [List.map_cons, List.mem_cons, lookupGroup, if_neg hk]
      rw [← ih (fun r hr => h r (List.mem_cons_of_mem _ hr))]
      simp [Ne.symm hk]

/-- With unique keys, each stored entry is its own lookup result. -/
theorem entry_eq_lookup (gs : List (String × List MEvent))
    (h : (gs.map Prod.fst).Nodup) (p : String × List MEvent) (hp : p ∈ gs) :
    p.2 = lookupGroup gs p.1 := by
  induction gs with
  | nil => cases hp
  | cons q rest ih =>
    obtain ⟨k, v⟩ := q
    rcases List.mem_cons.mp hp with hq | hq
    · subst hq
      simp [lookupGroup]
    · have hk : k ≠ p.1 := by
        intro hkp
        have : p.1 ∈ rest.map Prod.fst := List.mem_map_of_mem Prod.fst hq
        rw [← hkp] at this
        exact (List.nodup_cons.mp (by simpa using h)).1 this
      simp [lookupGroup, hk, ih (List.nodup_cons.mp (by simpa using h)).2 hq]

/-- Folding one event over its theme list preserves the grouping
invariants. -/
theorem innerFold_wf (ts : List String) (e : MEvent) :
    ∀ gs, GroupsWF gs → GroupsWF (ts.foldl (fun gs t => appendGroup gs t e) gs) := by
  induction ts with
  | nil => intro gs h; simpa using h
  | cons th ts ih =>
    intro gs h
    rw [List.foldl_cons]
    exact ih _ (wf_appendGroup gs th e h)

/-- Folding one event over its (duplicate-free) theme list appends the
event to exactly the groups of those themes. -/
theorem innerFold_lookup (ts : List String) (e : MEvent) :
    ts.Nodup → ∀ gs t,
      lookupGroup (ts.foldl (fun gs t => appendGroup gs t e) gs) t
        = lookupGroup gs t ++ (if t ∈ ts then [e] else []) := by
  induction ts with
  | nil => intro _ gs t; simp
  | cons th ts ih =>
    intro hnd gs t
    obtain ⟨hth, hnd'⟩ := List.nodup_cons.mp hnd
    rw [List.foldl_cons, ih hnd']
    by_cases ht : t = th
    · subst ht
      rw [lookup_appendGroup_same]
      simp [hth]
    · rw [lookup_appendGroup_other _ _ _ _ ht]
      simp [List.mem_cons, ht]

/-- The grouping loop: each theme group collects, in order, exactly the
processed events carrying that theme. -/
theorem buildGroups_go (evs : List MEvent) :
    ∀ gs, GroupsWF gs →
      GroupsWF (evs.foldl groupStep gs)
    ∧ ∀ t, lookupGroup (evs.foldl groupStep gs) t
        = lookupGroup gs t ++ evs.filter (fun e => t ∈ _extract_themes e) := by
  induction evs with
  | nil => intro gs h; simpa using h
  | cons e evs ih =>
    intro gs hwf
    rw [List.foldl_cons]
    have hwf' : GroupsWF (groupStep gs e) := innerFold_wf _ e gs hwf
    obtain ⟨h1, h2⟩ := ih _ hwf'
    refine ⟨h1, fun t => ?_⟩
    rw [h2 t]
    unfold groupStep
    rw [innerFold_lookup _ e (extract_themes_nodup e) gs t]
    by_cases hm : t ∈ _extract_themes e
    · simp [hm, List.filter_cons]
    · simp [hm, List.filter_cons]

/-- The built groups have unique keys and nonempty members. -/
theorem buildGroups_wf (events : List MEvent) : GroupsWF (buildGroups events) :=
  (buildGroups_go events [] ⟨List.nodup_nil, by simp⟩).1

/-- A theme group of the grouping loop is the sublist of input events
carrying that theme. -/
theorem buildGroups_lookup (events : List MEvent) (t : String) :
    lookupGroup (buildGroups events) t
      = events.filter (fun e => t ∈ _extract_themes e) := by
  have := (buildGroups_go events [] ⟨List.nodup_nil, by simp⟩).2 t
  simpa [buildGroups, lookupGroup] using this

/-- On an association list with unique keys, filtering for one key and a
minimum group size yields at most the single entry of that key. -/
theorem filter_len_entries (t : String) :
    ∀ gs : List (String × List MEvent), (gs.map Prod.fst).Nodup →
      gs.filter (fun p => p.1 = t && 2 ≤ p.2.length)
        = if 2 ≤ (lookupGroup gs t).length then [(t, lookupGroup gs t)] else [] := by
  intro gs
  induction gs with
  | nil => intro _; simp [lookupGroup]
  | cons q rest ih =>
    intro hnd
    obtain ⟨k, v⟩ := q
    rw [List.map_cons, List.nodup_cons] at hnd
    obtain ⟨hk0, hnd'⟩ := hnd
    by_cases hk : k = t
    · subst hk
      have hrest : rest.filter (fun p => p.1 = k && 2 ≤ p.2.length) = [] := by
        rw [List.filter_eq_nil_iff]
        intro p hp
        simp only [Bool.and_eq_true, decide_eq_true_eq]
        intro ⟨hpk, _⟩
        have hmem : p.1 ∈ rest.map Prod.fst := List.mem_map_of_mem Prod.fst hp
        rw [hpk] at hmem
        exact hk0 hmem
      by_cases hv : 2 ≤ v.length
      · simp [List.filter_cons, lookupGroup, hv, hrest]
      · simp [List.filter_cons, lookupGroup, hv, hrest]
    · simp only [List.filter_cons, lookupGroup, if_neg hk]
      have : ((k, v).1 = t && 2 ≤ (k, v).2.length) = false := by
        simp [hk]
      rw [this]
      simp only [Bool.false_eq_true, if_false]
      exact ih hnd'

/-- The unsorted cluster list holds, for each theme, one cluster over the
events carrying the theme when they number at least two, else none. -/
theorem rawClusters_filter_theme (events : List MEvent) (t : String) :
    (rawClusters events).filter (fun c => c.theme = t)
      = if 2 ≤ (events.filter (fun e => t ∈ _extract_themes e)).length
        then [mkCluster t (events.filter (fun e => t ∈ _extract_themes e))] else [] := by
  unfold rawClusters
  rw [List.filter_map]
  have hcongr : ∀ p ∈ (buildGroups events).filter (fun p => 2 ≤ p.2.length),
      ((fun c => decide (c.theme = t)) ∘ (fun p => mkCluster p.1 p.2)) p
        = decide (p.1 = t) := by
    intro p _
    rfl
  rw [List.filter_congr hcongr, List.filter_filter,
    filter_len_entries t (buildGroups events) (buildGroups_wf events).1,
    buildGroups_lookup]
  by_cases h2 : 2 ≤ (events.filter (fun e => t ∈ _extract_themes e)).length
  · simp [h2]
  · simp [h2]

/-- Themes are unique across the unsorted cluster list. -/
theorem rawClusters_themes_nodup (events : List MEvent) :
    ((rawClusters events).map MomentumCluster.theme).Nodup := by
  unfold rawClusters
  rw [List.map_map]
  have : (MomentumCluster.theme ∘ fun p : String × List MEvent => mkCluster p.1 p.2)
      = Prod.fst := rfl
  rw [this]
  exact (buildGroups_wf events).1.sublist ((List.filter_sublist _).map Prod.fst)

/-- Characterisation of membership in the unsorted cluster list. -/
theorem mem_rawClusters (events : List MEvent) (c : MomentumCluster) :
    c ∈ rawClusters events ↔
      ∃ t, 2 ≤ (events.filter (fun e => t ∈ _extract_themes e)).length
        ∧ c = mkCluster t (events.filter (fun e => t ∈ _extract_themes e)) := by
  constructor
  · intro hc
    obtain ⟨p, hp, hfp⟩ := List.mem_map.mp hc
    obtain ⟨hpg, hplen⟩ := List.mem_filter.mp hp
    have hlk : p.2 = lookupGroup (buildGroups events) p.1 :=
      entry_eq_lookup _ (buildGroups_wf events).1 p hpg
    rw [buildGroups_lookup] at hlk
    refine ⟨p.1, ?_, ?_⟩
    · rw [← hlk]
      exact Nat.le_of_ble_eq_true (by simpa using hplen)
    · rw [← hfp, ← hlk]
  · rintro ⟨t, hlen, rfl⟩
    have hfil := rawClusters_filter_theme events t
    rw [if_pos hlen] at hfil
    have : mkCluster t (events.filter (fun e => t ∈ _extract_themes e))
        ∈ (rawClusters events).filter (fun c => c.theme = t) := by
      rw [hfil]
      exact List.mem_singleton_self _
    exact (List.mem_filter.mp this).1

/-- The aggregator output is the sorted unsorted-cluster list. -/
theorem cluster_momentum_eq (events : List MEvent) :
    _cluster_momentum events
      = (rawClusters events).mergeSort
          (fun a b => decide (b.total_momentum ≤ a.total_momentum)) := rfl

/-- C2: the aggregator outputs exactly one cluster per theme carried by at
least two events (smaller theme groups are dropped), every output cluster
totals the momentum of its member events and counts their distinct
platforms, and the output is sorted by descending total momentum. -/
theorem C2_cluster_aggregator (events : List MEvent) :
    (∀ t : String, ((_cluster_momentum events).filter (fun c => c.theme = t)).length
        = if 2 ≤ (events.filter (fun e => t ∈ _extract_themes e)).length then 1 else 0)
  ∧ (∀ c ∈ _cluster_momentum events,
        2 ≤ c.events.length
      ∧ c.total_momentum = (c.events.map MEvent.momentum_score).sum
      ∧ c.platform_diversity = ((c.events.map MEvent.platform).toFinset).card)
  ∧ (_cluster_momentum events).Pairwise
      (fun a b => b.total_momentum ≤ a.total_momentum) := by
  refine ⟨?_, ?_, ?_⟩
  · intro t
    rw [cluster_momentum_eq, ← List.countP_eq_length_filter,
      List.Perm.countP_eq _ (List.mergeSort_perm _ _),
      List.countP_eq_length_filter, rawClusters_filter_theme]
    by_cases h2 : 2 ≤ (events.filter (fun e => t ∈ _extract_themes e)).length
    · simp [h2]
    · simp [h2]
  · intro c hc
    rw [cluster_momentum_eq, List.mem_mergeSort] at hc
    obtain ⟨t, hlen, rfl⟩ := (mem_rawClusters events c).mp hc
    refine ⟨hlen, rfl, ?_⟩
    rw [List.card_toFinset]
    rfl
  · rw [cluster_momentum_eq]
    refine List.Pairwise.imp (fun h => of_decide_eq_true h)
      (List.sorted_mergeSort ?_ ?_ (rawClusters events))
    · intro a b c hab hbc
      exact decide_eq_true (le_trans (of_decide_eq_true hbc) (of_decide_eq_true hab))
    · intro a b
      rcases le_total b.total_momentum a.total_momentum with h | h
      · simp [h]
      · simp [h]

/-- The aggregator on the two Scenario C events yields one cluster. -/
theorem Eclu : _cluster_momentum exEvents = [clusterC] := by
  have hb : buildGroups exEvents = [("pump_hype", [ePump1, ePump2])] := by decide
  unfold _cluster_momentum
  rw [hb]
  have hfil : ([("pump_hype", [ePump1, ePump2])].filter (fun p => 2 ≤ p.2.length))
      = [("pump_hype", [ePump1, ePump2])] := by decide
  simp only [hfil, List.map_cons, List.map_nil, List.mergeSort_singleton]
  have : mkCluster "pump_hype" [ePump1, ePump2] = clusterC := by
    unfold mkCluster clusterC
    simp [ePump1, ePump2]
    norm_num
  rw [this]

/-- Witness for C2 at the two Scenario C events. -/
theorem C2_cluster_aggregator_witness :
    (((_cluster_momentum exEvents).filter (fun c => c.theme = "pump_hype")).length
      = if 2 ≤ (exEvents.filter (fun e => "pump_hype" ∈ _extract_themes e)).length
        then 1 else 0)
  ∧ (2 ≤ clusterC.events.length
      ∧ clusterC.total_momentum = (clusterC.events.map MEvent.momentum_score).sum
      ∧ clusterC.platform_diversity = ((clusterC.events.map MEvent.platform).toFinset).card) :=
  ⟨(C2_cluster_aggregator exEvents).1 "pump_hype",
   (C2_cluster_aggregator exEvents).2.1 clusterC (by rw [Eclu]; simp)⟩

/-- C10: no two output clusters share a theme, and an event belongs to at
most as many clusters as it carries theme tags. -/
theorem C10_theme_uniqueness (events : List MEvent) :
    ((_cluster_momentum events).map MomentumCluster.theme).Nodup
  ∧ ∀ e : MEvent,
      ((_cluster_momentum events).filter (fun c => e ∈ c.events)).length
        ≤ (_extract_themes e).length := by
  have hnodup : ((_cluster_momentum events).map MomentumCluster.theme).Nodup := by
    rw [cluster_momentum_eq]
    exact (List.Perm.nodup_iff
      ((List.mergeSort_perm _ _).map MomentumCluster.theme)).mpr
      (rawClusters_themes_nodup events)
  refine ⟨hnodup, fun e => ?_⟩
  have hsub : ((_cluster_momentum events).filter (fun c => e ∈ c.events)).Sublist
      (_cluster_momentum events) := List.filter_sublist _
  have hndF : (((_cluster_momentum events).filter (fun c => e ∈ c.events)).map
      MomentumCluster.theme).Nodup := hnodup.sublist (hsub.map _)
  have hsubset : (((_cluster_momentum events).filter (fun c => e ∈ c.events)).map
      MomentumCluster.theme) ⊆ _extract_themes e := by
    intro x hx
    obtain ⟨c, hcF, rfl⟩ := List.mem_map.mp hx
    obtain ⟨hcin, hemem⟩ := List.mem_filter.mp hcF
    rw [cluster_momentum_eq, List.mem_mergeSort] at hcin
    obtain ⟨t, hlen, rfl⟩ := (mem_rawClusters events c).mp hcin
    have hef : e ∈ events.filter (fun e2 => t ∈ _extract_themes e2) :=
      of_decide_eq_true hemem
    exact of_decide_eq_true (List.mem_filter.mp hef).2
  calc ((_cluster_momentum events).filter (fun c => e ∈ c.events)).length
      = (((_cluster_momentum events).filter (fun c => e ∈ c.events)).map
          MomentumCluster.theme).length := (List.length_map _ _).symm
    _ ≤ (_extract_themes e).length :=
        (List.subperm_of_subset hndF hsubset).length_le
